import Mathlib

/-!
Verification of the agent-selection service of the coding-agent plugin
(`src/packages/plugin-coding-agent/src/services/agent-selection.ts`).

The embedding models JavaScript numeric arithmetic over `ℚ` (the values
involved are exact decimal fractions and counters, and no float-specific
behaviour is exercised by the algorithm).
-/

namespace Milaidy

/-- Modelled from the spec: the adapter-type universe of the external
`coding-agent-adapters` package (not part of the sources), taken as the
fixed candidate set used by agent selection and preflight:
claude, gemini, codex, aider. -/
inductive AdapterType where
  | claude
  | gemini
  | codex
  | aider
deriving DecidableEq, Repr

/-- Subset of AgentMetrics fields used for scoring
(`AgentScoreInput` in the source). -/
structure AgentScoreInput where
  spawned : ℚ
  completed : ℚ
  stallCount : ℚ
  avgCompletionMs : ℚ
deriving DecidableEq, Repr

/-- Modelled from the spec: `PreflightResult` of the external
`coding-agent-adapters` package — adapterType, installed flag, install
guidance. -/
structure PreflightResult where
  adapter : AdapterType
  installed : Bool
  installCommand : String
  docsUrl : String
deriving DecidableEq, Repr

inductive AgentSelectionStrategy where
  | fixed
  | ranked
deriving DecidableEq, Repr

structure AgentSelectionConfig where
  strategy : AgentSelectionStrategy
  fixedAgentType : AdapterType
deriving DecidableEq, Repr

/-- `AgentSelectionContext`: config, per-agent-type metrics snapshot
(a partial map, `Record<string, AgentScoreInput>` in the source), and the
preflight results whose `installed` entries are the candidates. -/
structure AgentSelectionContext where
  config : AgentSelectionConfig
  metrics : AdapterType → Option AgentScoreInput
  installedAgents : List PreflightResult

/-- `computeAgentScore` from the source:
cold start (absent metrics or `spawned === 0`) returns `0.5`; otherwise
`max(0, successRate - stallPenalty - speedPenalty)` with
`successRate = rawSuccess*volumeWeight + 0.5*(1-volumeWeight)`,
`rawSuccess = completed/spawned`, `volumeWeight = min(1, spawned/5)`,
`stallPenalty = (stallCount/spawned)*0.3`,
`speedPenalty = min(avgCompletionMs/300000, 1)*0.1`. -/
def computeAgentScore : Option AgentScoreInput → ℚ
  | none => 0.5
  | some metrics =>
    if metrics.spawned = 0 then 0.5
    else
      let rawSuccess := metrics.completed / metrics.spawned
      let volumeWeight := min 1 (metrics.spawned / 5)
      let successRate := rawSuccess * volumeWeight + 0.5 * (1 - volumeWeight)
      let stallPenalty := (metrics.stallCount / metrics.spawned) * 0.3
      let speedPenalty := min (metrics.avgCompletionMs / 300000) 1 * 0.1
      max 0 (successRate - stallPenalty - speedPenalty)

/-- Default ordering when scores are tied — first entry wins
(`DEFAULT_ORDER` in the source). -/
def DEFAULT_ORDER : List AdapterType :=
  [.claude, .gemini, .codex, .aider]

/-- The set of adapter types marked installed in the preflight results
(the `installed` set built at the top of ranked mode in the source). -/
def installedTypes (ctx : AgentSelectionContext) : List AdapterType :=
  (ctx.installedAgents.filter (fun r => r.installed)).map (fun r => r.adapter)

/-- Body of the ranked-mode loop of `selectAgentType`: skip agents not in
the installed set, otherwise keep the strictly better score. -/
def selectStep (ctx : AgentSelectionContext) (installed : List AdapterType)
    (best : AdapterType × ℚ) (agent : AdapterType) : AdapterType × ℚ :=
  if agent ∈ installed then
    if best.2 < computeAgentScore (ctx.metrics agent) then
      (agent, computeAgentScore (ctx.metrics agent))
    else best
  else best

/-- `selectAgentType` from the source: `fixed` strategy returns
`config.fixedAgentType`; ranked mode restricts to installed adapters,
falls back to `config.fixedAgentType` when none is installed, and
otherwise scans `DEFAULT_ORDER`, keeping the strictly highest score
(initial best score `-1`). -/
def selectAgentType (ctx : AgentSelectionContext) : AdapterType :=
  if ctx.config.strategy = AgentSelectionStrategy.fixed then
    ctx.config.fixedAgentType
  else if installedTypes ctx = [] then
    ctx.config.fixedAgentType
  else
    (DEFAULT_ORDER.foldl (selectStep ctx (installedTypes ctx))
      (ctx.config.fixedAgentType, -1)).1

end Milaidy

namespace Milaidy

/-- The score of any metrics record (or absent record) is nonnegative. -/
lemma computeAgentScore_nonneg (mo : Option AgentScoreInput) :
    0 ≤ computeAgentScore mo := by
  cases mo with
  | none => norm_num [computeAgentScore]
  | some m =>
    simp only [computeAgentScore]
    split
    · norm_num
    · exact le_max_left 0 _

/-- C3: for spawned > 0, `computeAgentScore` is exactly the documented
closed-form score. -/
theorem computeAgentScore_formula (m : AgentScoreInput) (h : 0 < m.spawned) :
    computeAgentScore (some m) =
      max 0 ((m.completed / m.spawned) * min 1 (m.spawned / 5)
        + 0.5 * (1 - min 1 (m.spawned / 5))
        - (m.stallCount / m.spawned) * 0.3
        - min (m.avgCompletionMs / 300000) 1 * 0.1) := by
  simp only [computeAgentScore]
  rw [if_neg (ne_of_gt h)]

/-- Witness for C3 at a concrete metrics record. -/
theorem computeAgentScore_formula_witness :
    computeAgentScore (some ⟨10, 8, 1, 30000⟩) =
      max 0 (((8 : ℚ) / 10) * min 1 ((10 : ℚ) / 5)
        + 0.5 * (1 - min 1 ((10 : ℚ) / 5))
        - ((1 : ℚ) / 10) * 0.3
        - min ((30000 : ℚ) / 300000) 1 * 0.1) :=
  computeAgentScore_formula ⟨10, 8, 1, 30000⟩ (by norm_num)

/-- C5: absent metrics, and every metrics record with spawned = 0, score
exactly 0.5, whatever the other fields. -/
theorem computeAgentScore_cold_start :
    computeAgentScore none = 0.5 ∧
    ∀ m : AgentScoreInput, m.spawned = 0 → computeAgentScore (some m) = 0.5 := by
  constructor
  · rfl
  · intro m hm
    simp only [computeAgentScore]
    rw [if_pos hm]

/-- Witness for C5 at a concrete record with spawned = 0 and nonzero
other fields. -/
theorem computeAgentScore_cold_start_witness :
    computeAgentScore (some ⟨0, 7, 3, 99999⟩) = 0.5 :=
  computeAgentScore_cold_start.2 ⟨0, 7, 3, 99999⟩ rfl

/-- C4 counterexample: with completed exceeding spawned the score leaves
[0, 1] — at spawned = 5, completed = 10 the score is 2. -/
theorem computeAgentScore_above_one :
    1 < computeAgentScore (some ⟨5, 10, 0, 0⟩) := by
  norm_num [computeAgentScore]

/-- C4 amended: for absent metrics, and for every metrics record whose
fields satisfy the metrics-store invariants (0 ≤ spawned,
completed ≤ spawned, 0 ≤ stallCount, 0 ≤ avgCompletionMs), the score
lies within [0, 1]. -/
theorem computeAgentScore_mem_Icc (mo : Option AgentScoreInput)
    (h : ∀ m : AgentScoreInput, mo = some m →
      0 ≤ m.spawned ∧ m.completed ≤ m.spawned ∧
      0 ≤ m.stallCount ∧ 0 ≤ m.avgCompletionMs) :
    computeAgentScore mo ∈ Set.Icc (0 : ℚ) 1 := by
  cases mo with
  | none =>
    rw [Set.mem_Icc]
    norm_num [computeAgentScore]
  | some m =>
    obtain ⟨hs0, hcs, hst, hav⟩ := h m rfl
    rw [Set.mem_Icc]
    by_cases hz : m.spawned = 0
    · simp only [computeAgentScore, if_pos hz]
      norm_num
    · have hs : 0 < m.spawned := lt_of_le_of_ne hs0 (Ne.symm hz)
      simp only [computeAgentScore, if_neg hz]
      have hraw : m.completed / m.spawned ≤ 1 := (div_le_one hs).mpr hcs
      have hvw0 : (0 : ℚ) ≤ min 1 (m.spawned / 5) :=
        le_min (by norm_num) (by positivity)
      have hvw1 : min 1 (m.spawned / 5) ≤ (1 : ℚ) := min_le_left _ _
      have hstp : (0 : ℚ) ≤ m.stallCount / m.spawned * 0.3 := by positivity
      have hspp : (0 : ℚ) ≤ min (m.avgCompletionMs / 300000) 1 * 0.1 :=
        mul_nonneg (le_min (by positivity) (by norm_num)) (by norm_num)
      have hmul : m.completed / m.spawned * min 1 (m.spawned / 5)
          ≤ min 1 (m.spawned / 5) := by
        calc m.completed / m.spawned * min 1 (m.spawned / 5)
            ≤ 1 * min 1 (m.spawned / 5) :=
              mul_le_mul_of_nonneg_right hraw hvw0
          _ = min 1 (m.spawned / 5) := one_mul _
      exact ⟨le_max_left _ _, max_le (by norm_num) (by linarith)⟩

/-- Witness for the amended C4 at a concrete metrics record. -/
theorem computeAgentScore_mem_Icc_witness :
    computeAgentScore (some ⟨10, 8, 1, 30000⟩) ∈ Set.Icc (0 : ℚ) 1 :=
  computeAgentScore_mem_Icc (some ⟨10, 8, 1, 30000⟩)
    (fun m hm => by cases hm; refine ⟨by norm_num, by norm_num, by norm_num, by norm_num⟩)

/-- C6: holding spawned (> 0), stallCount and avgCompletionMs fixed,
increasing completed (within spawned) never decreases the score. -/
theorem computeAgentScore_mono_completed (m1 m2 : AgentScoreInput)
    (hsp : m1.spawned = m2.spawned) (hst : m1.stallCount = m2.stallCount)
    (hav : m1.avgCompletionMs = m2.avgCompletionMs)
    (hpos : 0 < m1.spawned)
    (hc : m1.completed ≤ m2.completed)
    (_hb1 : m1.completed ≤ m1.spawned) (_hb2 : m2.completed ≤ m2.spawned) :
    computeAgentScore (some m1) ≤ computeAgentScore (some m2) := by
  have hz1 : m1.spawned ≠ 0 := ne_of_gt hpos
  have hz2 : m2.spawned ≠ 0 := by rw [← hsp]; exact hz1
  simp only [computeAgentScore, if_neg hz1, if_neg hz2, ← hsp, ← hst, ← hav]
  apply max_le_max le_rfl
  have hvw0 : (0 : ℚ) ≤ min 1 (m1.spawned / 5) :=
    le_min (by norm_num) (by positivity)
  have hdiv : m1.completed / m1.spawned ≤ m2.completed / m1.spawned :=
    (div_le_div_iff_of_pos_right hpos).mpr hc
  have := mul_le_mul_of_nonneg_right hdiv hvw0
  linarith

/-- Witness for C6 at concrete metrics records. -/
theorem computeAgentScore_mono_completed_witness :
    computeAgentScore (some ⟨10, 3, 2, 5000⟩) ≤
      computeAgentScore (some ⟨10, 7, 2, 5000⟩) :=
  computeAgentScore_mono_completed ⟨10, 3, 2, 5000⟩ ⟨10, 7, 2, 5000⟩
    rfl rfl rfl (by norm_num) (by norm_num) (by norm_num) (by norm_num)

/-- C9: holding spawned (> 0), completed and avgCompletionMs fixed,
increasing stallCount never raises the score. -/
theorem computeAgentScore_antitone_stallCount (m1 m2 : AgentScoreInput)
    (hsp : m1.spawned = m2.spawned) (hcc : m1.completed = m2.completed)
    (hav : m1.avgCompletionMs = m2.avgCompletionMs)
    (hpos : 0 < m1.spawned)
    (hstall : m1.stallCount ≤ m2.stallCount) :
    computeAgentScore (some m2) ≤ computeAgentScore (some m1) := by
  have hz1 : m1.spawned ≠ 0 := ne_of_gt hpos
  have hz2 : m2.spawned ≠ 0 := by rw [← hsp]; exact hz1
  simp only [computeAgentScore, if_neg hz1, if_neg hz2, ← hsp, ← hcc, ← hav]
  apply max_le_max le_rfl
  have hdiv : m1.stallCount / m1.spawned ≤ m2.stallCount / m1.spawned :=
    (div_le_div_iff_of_pos_right hpos).mpr hstall
  linarith

/-- Witness for C9 at concrete metrics records. -/
theorem computeAgentScore_antitone_stallCount_witness :
    computeAgentScore (some ⟨10, 7, 6, 5000⟩) ≤
      computeAgentScore (some ⟨10, 7, 2, 5000⟩) :=
  computeAgentScore_antitone_stallCount ⟨10, 7, 2, 5000⟩ ⟨10, 7, 6, 5000⟩
    rfl rfl rfl (by norm_num) (by norm_num)

/-- Every adapter type occurs in the default order. -/
lemma mem_DEFAULT_ORDER (a : AdapterType) : a ∈ DEFAULT_ORDER := by
  cases a <;> simp [DEFAULT_ORDER]

/-- The default order has no duplicates. -/
lemma nodup_DEFAULT_ORDER : DEFAULT_ORDER.Nodup := by decide

/-- The adapter of an installed preflight entry belongs to the installed
set. -/
lemma adapter_mem_installedTypes {ctx : AgentSelectionContext}
    {r : PreflightResult} (hr : r ∈ ctx.installedAgents)
    (hri : r.installed = true) : r.adapter ∈ installedTypes ctx := by
  simp only [installedTypes, List.mem_map]
  exact ⟨r, List.mem_filter.mpr ⟨hr, hri⟩, rfl⟩

/-- Membership in the installed set unfolds to an installed preflight
entry with that adapter. -/
lemma mem_installedTypes_iff (ctx : AgentSelectionContext) (a : AdapterType) :
    a ∈ installedTypes ctx
      ↔ ∃ r, r ∈ ctx.installedAgents ∧ r.installed = true ∧ r.adapter = a := by
  simp only [installedTypes, List.mem_map, List.mem_filter]
  constructor
  · rintro ⟨r, ⟨hr, hri⟩, ha⟩
    exact ⟨r, hr, hri, ha⟩
  · rintro ⟨r, hr, hri, ha⟩
    exact ⟨r, ⟨hr, hri⟩, ha⟩

/-- An installed preflight entry makes the installed set nonempty. -/
lemma installedTypes_ne_nil {ctx : AgentSelectionContext}
    (hi : ∃ r, r ∈ ctx.installedAgents ∧ r.installed = true) :
    installedTypes ctx ≠ [] := by
  obtain ⟨r, hr, hri⟩ := hi
  exact List.ne_nil_of_mem (adapter_mem_installedTypes hr hri)

/-- When every preflight entry is uninstalled, the installed set is
empty. -/
lemma installedTypes_eq_nil (ctx : AgentSelectionContext)
    (h : ∀ r ∈ ctx.installedAgents, r.installed = false) :
    installedTypes ctx = [] := by
  simp only [installedTypes, List.map_eq_nil_iff, List.filter_eq_nil_iff]
  intro r hr
  simp [h r hr]

/-- Under the ranked strategy with a nonempty installed set,
`selectAgentType` is the first component of the scan over
`DEFAULT_ORDER`. -/
lemma selectAgentType_eq_foldl (ctx : AgentSelectionContext)
    (hs : ctx.config.strategy = AgentSelectionStrategy.ranked)
    (hne : installedTypes ctx ≠ []) :
    selectAgentType ctx
      = (DEFAULT_ORDER.foldl (selectStep ctx (installedTypes ctx))
          (ctx.config.fixedAgentType, -1)).1 := by
  have h1 : ctx.config.strategy ≠ AgentSelectionStrategy.fixed := by
    rw [hs]; decide
  simp only [selectAgentType, if_neg h1, if_neg hne]

/-- Invariant of the ranked-mode scan: the resulting best score dominates
every installed score in the scanned list, never falls below the initial
score, the resulting pair is either the untouched initial pair or an
installed element of the list carrying its own score, and among installed
elements whose score strictly beats the initial score and matches the
final score, the final agent occurs first in the list. -/
lemma foldl_selectStep_spec (ctx : AgentSelectionContext)
    (installed : List AdapterType) :
    ∀ (l : List AdapterType) (b0 : AdapterType) (s0 : ℚ), l.Nodup →
      (∀ a ∈ l, a ∈ installed →
          computeAgentScore (ctx.metrics a)
            ≤ (l.foldl (selectStep ctx installed) (b0, s0)).2)
      ∧ s0 ≤ (l.foldl (selectStep ctx installed) (b0, s0)).2
      ∧ (l.foldl (selectStep ctx installed) (b0, s0) = (b0, s0)
          ∨ ((l.foldl (selectStep ctx installed) (b0, s0)).1 ∈ l
            ∧ (l.foldl (selectStep ctx installed) (b0, s0)).1 ∈ installed
            ∧ (l.foldl (selectStep ctx installed) (b0, s0)).2
                = computeAgentScore
                    (ctx.metrics (l.foldl (selectStep ctx installed) (b0, s0)).1)
            ∧ s0 < (l.foldl (selectStep ctx installed) (b0, s0)).2))
      ∧ (∀ a ∈ l, a ∈ installed →
          s0 < computeAgentScore (ctx.metrics a) →
          computeAgentScore (ctx.metrics a)
            = (l.foldl (selectStep ctx installed) (b0, s0)).2 →
          List.indexOf (l.foldl (selectStep ctx installed) (b0, s0)).1 l
            ≤ List.indexOf a l) := by
  intro l
  induction l with
  | nil =>
    intro b0 s0 _
    refine ⟨?_, le_rfl, Or.inl rfl, ?_⟩
    · intro a ha
      exact absurd ha (List.not_mem_nil a)
    · intro a ha
      exact absurd ha (List.not_mem_nil a)
  | cons x t ih =>
    intro b0 s0 hnd
    obtain ⟨hx, ht⟩ := List.nodup_cons.mp hnd
    by_cases hmem : x ∈ installed
    · by_cases hlt : s0 < computeAgentScore (ctx.metrics x)
      · -- x is installed and strictly improves on the running best
        have hstep : selectStep ctx installed (b0, s0) x
            = (x, computeAgentScore (ctx.metrics x)) := by
          simp [selectStep, hmem, hlt]
        rw [List.foldl_cons, hstep]
        obtain ⟨ih1, ih2, ih3, ih4⟩ :=
          ih x (computeAgentScore (ctx.metrics x)) ht
        refine ⟨?_, ?_, ?_, ?_⟩
        · intro a ha hainst
          rcases List.mem_cons.mp ha with rfl | hat
          · exact ih2
          · exact ih1 a hat hainst
        · exact le_trans (le_of_lt hlt) ih2
        · right
          rcases ih3 with heq | ⟨hmem1, hmem2, hval, hlt2⟩
          · rw [heq]
            exact ⟨List.mem_cons_self x t, hmem, rfl, hlt⟩
          · exact ⟨List.mem_cons_of_mem x hmem1, hmem2, hval,
              lt_trans hlt hlt2⟩
        · intro a ha hainst halt haeq
          rcases List.mem_cons.mp ha with rfl | hat
          · rcases ih3 with heq | ⟨hmem1, hmem2, hval, hlt2⟩
            · rw [heq]
            · exact absurd haeq (ne_of_lt hlt2)
          · rcases ih3 with heq | ⟨hmem1, hmem2, hval, hlt2⟩
            · rw [heq]
              simp
            · have hner : (t.foldl (selectStep ctx installed)
                  (x, computeAgentScore (ctx.metrics x))).1 ≠ x :=
                fun hEq => hx (hEq ▸ hmem1)
              have hnea : a ≠ x := fun hEq => hx (hEq ▸ hat)
              rw [List.indexOf_cons_ne t (Ne.symm hner),
                List.indexOf_cons_ne t (Ne.symm hnea)]
              refine Nat.succ_le_succ (ih4 a hat hainst ?_ haeq)
              rw [← haeq] at hlt2
              exact hlt2
      · -- x is installed but does not improve on the running best
        have hstep : selectStep ctx installed (b0, s0) x = (b0, s0) := by
          simp [selectStep, hmem, hlt]
        rw [List.foldl_cons, hstep]
        obtain ⟨ih1, ih2, ih3, ih4⟩ := ih b0 s0 ht
        refine ⟨?_, ih2, ?_, ?_⟩
        · intro a ha hainst
          rcases List.mem_cons.mp ha with rfl | hat
          · exact le_trans (not_lt.mp hlt) ih2
          · exact ih1 a hat hainst
        · rcases ih3 with heq | ⟨hmem1, hmem2, hval, hlt2⟩
          · exact Or.inl heq
          · exact Or.inr ⟨List.mem_cons_of_mem x hmem1, hmem2, hval, hlt2⟩
        · intro a ha hainst halt haeq
          rcases List.mem_cons.mp ha with rfl | hat
          · exact absurd halt hlt
          · rcases ih3 with heq | ⟨hmem1, hmem2, hval, hlt2⟩
            · rw [heq] at haeq
              exact absurd (haeq ▸ halt) (lt_irrefl _)
            · have hner : (t.foldl (selectStep ctx installed) (b0, s0)).1 ≠ x :=
                fun hEq => hx (hEq ▸ hmem1)
              have hnea : a ≠ x := fun hEq => hx (hEq ▸ hat)
              rw [List.indexOf_cons_ne t (Ne.symm hner),
                List.indexOf_cons_ne t (Ne.symm hnea)]
              exact Nat.succ_le_succ (ih4 a hat hainst halt haeq)
    · -- x is not installed: the step is a no-op
      have hstep : selectStep ctx installed (b0, s0) x = (b0, s0) := by
        simp [selectStep, hmem]
      rw [List.foldl_cons, hstep]
      obtain ⟨ih1, ih2, ih3, ih4⟩ := ih b0 s0 ht
      refine ⟨?_, ih2, ?_, ?_⟩
      · intro a ha hainst
        rcases List.mem_cons.mp ha with rfl | hat
        · exact absurd hainst hmem
        · exact ih1 a hat hainst
      · rcases ih3 with heq | ⟨hmem1, hmem2, hval, hlt2⟩
        · exact Or.inl heq
        · exact Or.inr ⟨List.mem_cons_of_mem x hmem1, hmem2, hval, hlt2⟩
      · intro a ha hainst halt haeq
        rcases List.mem_cons.mp ha with rfl | hat
        · exact absurd hainst hmem
        · rcases ih3 with heq | ⟨hmem1, hmem2, hval, hlt2⟩
          · rw [heq] at haeq
            exact absurd (haeq ▸ halt) (lt_irrefl _)
          · have hner : (t.foldl (selectStep ctx installed) (b0, s0)).1 ≠ x :=
              fun hEq => hx (hEq ▸ hmem1)
            have hnea : a ≠ x := fun hEq => hx (hEq ▸ hat)
            rw [List.indexOf_cons_ne t (Ne.symm hner),
              List.indexOf_cons_ne t (Ne.symm hnea)]
            exact Nat.succ_le_succ (ih4 a hat hainst halt haeq)

/-- C1: under the ranked strategy with at least one installed entry,
`selectAgentType` returns an installed candidate whose score is maximal
among the installed candidates, and among the maximizers it is the one
occurring first in `DEFAULT_ORDER` (so with all scores equal — e.g. all
metrics absent — it is the first installed adapter in that order). -/
theorem selectAgentType_ranked_argmax (ctx : AgentSelectionContext)
    (hs : ctx.config.strategy = AgentSelectionStrategy.ranked)
    (hi : ∃ r, r ∈ ctx.installedAgents ∧ r.installed = true) :
    selectAgentType ctx ∈ installedTypes ctx
    ∧ (∀ a ∈ installedTypes ctx,
        computeAgentScore (ctx.metrics a)
          ≤ computeAgentScore (ctx.metrics (selectAgentType ctx)))
    ∧ (∀ a ∈ installedTypes ctx,
        computeAgentScore (ctx.metrics a)
          = computeAgentScore (ctx.metrics (selectAgentType ctx)) →
        List.indexOf (selectAgentType ctx) DEFAULT_ORDER
          ≤ List.indexOf a DEFAULT_ORDER) := by
  have hne := installedTypes_ne_nil hi
  have hsel := selectAgentType_eq_foldl ctx hs hne
  obtain ⟨h1, h2, h3, h4⟩ :=
    foldl_selectStep_spec ctx (installedTypes ctx) DEFAULT_ORDER
      ctx.config.fixedAgentType (-1) nodup_DEFAULT_ORDER
  set r := DEFAULT_ORDER.foldl (selectStep ctx (installedTypes ctx))
      (ctx.config.fixedAgentType, -1) with hr
  obtain ⟨t0, ht0⟩ := List.exists_mem_of_ne_nil _ hne
  have hr2 : (0 : ℚ) ≤ r.2 :=
    le_trans (computeAgentScore_nonneg _) (h1 t0 (mem_DEFAULT_ORDER t0) ht0)
  rcases h3 with heq | ⟨hm1, hm2, hval, hm4⟩
  · exfalso
    have hneg : r.2 = -1 := by rw [heq]
    rw [hneg] at hr2
    norm_num at hr2
  · refine ⟨?_, ?_, ?_⟩
    · rw [hsel]
      exact hm2
    · intro a ha
      rw [hsel, ← hval]
      exact h1 a (mem_DEFAULT_ORDER a) ha
    · intro a ha haeq
      rw [hsel] at haeq ⊢
      exact h4 a (mem_DEFAULT_ORDER a) ha
        (lt_of_lt_of_le (by norm_num) (computeAgentScore_nonneg (ctx.metrics a)))
        (by rw [haeq, hval])

/-- Concrete ranked context for the C1 witness: only gemini installed,
no metrics. -/
def ctxC1 : AgentSelectionContext :=
  ⟨⟨AgentSelectionStrategy.ranked, AdapterType.aider⟩, fun _ => none,
    [⟨AdapterType.gemini, true, "", ""⟩]⟩

/-- Witness for C1: the ranked argmax characterization at `ctxC1`. -/
theorem selectAgentType_ranked_argmax_witness :
    selectAgentType ctxC1 ∈ installedTypes ctxC1
    ∧ (∀ a ∈ installedTypes ctxC1,
        computeAgentScore (ctxC1.metrics a)
          ≤ computeAgentScore (ctxC1.metrics (selectAgentType ctxC1)))
    ∧ (∀ a ∈ installedTypes ctxC1,
        computeAgentScore (ctxC1.metrics a)
          = computeAgentScore (ctxC1.metrics (selectAgentType ctxC1)) →
        List.indexOf (selectAgentType ctxC1) DEFAULT_ORDER
          ≤ List.indexOf a DEFAULT_ORDER) :=
  selectAgentType_ranked_argmax ctxC1 rfl
    ⟨⟨AdapterType.gemini, true, "", ""⟩, List.mem_singleton.mpr rfl, rfl⟩

/-- C2: under the ranked strategy with at least one installed entry, the
returned adapter type comes from an installed entry of
`installedAgents`. -/
theorem selectAgentType_ranked_mem_installed (ctx : AgentSelectionContext)
    (hs : ctx.config.strategy = AgentSelectionStrategy.ranked)
    (hi : ∃ r, r ∈ ctx.installedAgents ∧ r.installed = true) :
    ∃ r, r ∈ ctx.installedAgents ∧ r.installed = true
      ∧ r.adapter = selectAgentType ctx := by
  have hne := installedTypes_ne_nil hi
  have hsel := selectAgentType_eq_foldl ctx hs hne
  obtain ⟨h1, h2, h3, h4⟩ :=
    foldl_selectStep_spec ctx (installedTypes ctx) DEFAULT_ORDER
      ctx.config.fixedAgentType (-1) nodup_DEFAULT_ORDER
  set r := DEFAULT_ORDER.foldl (selectStep ctx (installedTypes ctx))
      (ctx.config.fixedAgentType, -1) with hr
  obtain ⟨t0, ht0⟩ := List.exists_mem_of_ne_nil _ hne
  have hr2 : (0 : ℚ) ≤ r.2 :=
    le_trans (computeAgentScore_nonneg _) (h1 t0 (mem_DEFAULT_ORDER t0) ht0)
  rcases h3 with heq | ⟨hm1, hm2, hval, hm4⟩
  · exfalso
    have hneg : r.2 = -1 := by rw [heq]
    rw [hneg] at hr2
    norm_num at hr2
  · rw [hsel]
    exact (mem_installedTypes_iff ctx r.1).mp hm2

/-- Concrete ranked context for the C2 witness: codex and aider
installed, claude present but uninstalled. -/
def ctxC2 : AgentSelectionContext :=
  ⟨⟨AgentSelectionStrategy.ranked, AdapterType.claude⟩, fun _ => none,
    [⟨AdapterType.claude, false, "", ""⟩, ⟨AdapterType.codex, true, "", ""⟩,
      ⟨AdapterType.aider, true, "", ""⟩]⟩

/-- Witness for C2 at `ctxC2`. -/
theorem selectAgentType_ranked_mem_installed_witness :
    ∃ r, r ∈ ctxC2.installedAgents ∧ r.installed = true
      ∧ r.adapter = selectAgentType ctxC2 :=
  selectAgentType_ranked_mem_installed ctxC2 rfl
    ⟨⟨AdapterType.codex, true, "", ""⟩, by simp [ctxC2], rfl⟩

/-- C7: the fixed strategy always returns `config.fixedAgentType`,
whatever the metrics and installed agents. -/
theorem selectAgentType_fixed_strategy (ctx : AgentSelectionContext)
    (hs : ctx.config.strategy = AgentSelectionStrategy.fixed) :
    selectAgentType ctx = ctx.config.fixedAgentType := by
  simp [selectAgentType, hs]

/-- Concrete fixed-strategy context for the C7 witness, with nonempty
metrics and installed list. -/
def ctxC7 : AgentSelectionContext :=
  ⟨⟨AgentSelectionStrategy.fixed, AdapterType.codex⟩,
    fun _ => some ⟨10, 10, 0, 1000⟩,
    [⟨AdapterType.claude, true, "", ""⟩, ⟨AdapterType.gemini, true, "", ""⟩]⟩

/-- Witness for C7 at `ctxC7`. -/
theorem selectAgentType_fixed_strategy_witness :
    selectAgentType ctxC7 = ctxC7.config.fixedAgentType :=
  selectAgentType_fixed_strategy ctxC7 rfl

/-- C8: under the ranked strategy, when no entry of `installedAgents` is
marked installed (in particular when the list is empty), the result is
`config.fixedAgentType`, for all metrics. -/
theorem selectAgentType_ranked_none_installed (ctx : AgentSelectionContext)
    (hs : ctx.config.strategy = AgentSelectionStrategy.ranked)
    (h : ∀ r ∈ ctx.installedAgents, r.installed = false) :
    selectAgentType ctx = ctx.config.fixedAgentType := by
  have h1 : ctx.config.strategy ≠ AgentSelectionStrategy.fixed := by
    rw [hs]; decide
  simp only [selectAgentType, if_neg h1, installedTypes_eq_nil ctx h, if_true]

/-- Concrete ranked context for the C8 witness: one entry, uninstalled. -/
def ctxC8 : AgentSelectionContext :=
  ⟨⟨AgentSelectionStrategy.ranked, AdapterType.gemini⟩,
    fun _ => some ⟨10, 10, 0, 1000⟩, [⟨AdapterType.claude, false, "", ""⟩]⟩

/-- Witness for C8 at `ctxC8`. -/
theorem selectAgentType_ranked_none_installed_witness :
    selectAgentType ctxC8 = ctxC8.config.fixedAgentType :=
  selectAgentType_ranked_none_installed ctxC8 rfl
    (fun r hr => by
      simp only [ctxC8] at hr
      rcases List.mem_singleton.mp hr with rfl
      rfl)

/-- C10: `selectAgentType` depends on `installedAgents` only through the
set of adapter types marked installed — same config, same metrics and the
same installed set (whatever the order, duplicates, uninstalled entries
or install-guidance fields) give the same result. -/
theorem selectAgentType_installed_set_extensional
    (ctx1 ctx2 : AgentSelectionContext)
    (hc : ctx1.config = ctx2.config) (hm : ctx1.metrics = ctx2.metrics)
    (hiff : ∀ a : AdapterType,
      a ∈ installedTypes ctx1 ↔ a ∈ installedTypes ctx2) :
    selectAgentType ctx1 = selectAgentType ctx2 := by
  have hstep : selectStep ctx1 (installedTypes ctx1)
      = selectStep ctx2 (installedTypes ctx2) := by
    funext best agent
    simp only [selectStep, hm]
    exact if_congr (hiff agent) rfl rfl
  have hnil : (installedTypes ctx1 = []) ↔ (installedTypes ctx2 = []) := by
    constructor
    · intro h
      refine List.eq_nil_iff_forall_not_mem.mpr (fun a ha => ?_)
      have := (hiff a).mpr ha
      rw [h] at this
      exact List.not_mem_nil a this
    · intro h
      refine List.eq_nil_iff_forall_not_mem.mpr (fun a ha => ?_)
      have := (hiff a).mp ha
      rw [h] at this
      exact List.not_mem_nil a this
  unfold selectAgentType
  rw [hc, hstep]
  exact if_congr Iff.rfl rfl (if_congr hnil rfl rfl)

/-- First context for the C10 witness: gemini installed once plus an
uninstalled claude entry. -/
def ctxC10a : AgentSelectionContext :=
  ⟨⟨AgentSelectionStrategy.ranked, AdapterType.claude⟩, fun _ => none,
    [⟨AdapterType.gemini, true, "cmd", "url"⟩,
      ⟨AdapterType.claude, false, "", ""⟩]⟩

/-- Second context for the C10 witness: the same installed set presented
as duplicated gemini entries with different guidance fields. -/
def ctxC10b : AgentSelectionContext :=
  ⟨⟨AgentSelectionStrategy.ranked, AdapterType.claude⟩, fun _ => none,
    [⟨AdapterType.gemini, true, "", ""⟩,
      ⟨AdapterType.gemini, true, "other", "doc"⟩]⟩

/-- Witness for C10 at `ctxC10a`/`ctxC10b`. -/
theorem selectAgentType_installed_set_extensional_witness :
    selectAgentType ctxC10a = selectAgentType ctxC10b :=
  selectAgentType_installed_set_extensional ctxC10a ctxC10b rfl rfl
    (fun a => by cases a <;> decide)

end Milaidy
